import Mathlib

set_option maxHeartbeats 1000000

/-!
Shallow embedding of the domain resolution engine of the whois repository
(RDAP client, WHOIS socket client, response normalizer, resolution
orchestrator and result caches), together with theorems settling the
frozen claims about it.  Machine timestamps are modelled as natural
numbers of milliseconds; network and platform primitives (fetch, TCP
sockets, the system whois command, URL parsing) are modelled as explicit
oracle parameters, so every run of the embedded code is a pure function
of its oracle, its state and its input.
-/

namespace WhoisSpec

/-! ### String helpers mirroring the JavaScript primitives used by the source -/

/-- Boolean list prefix test, used to model JavaScript substring search. -/
def isPrefixB : List Char → List Char → Bool
  | [], _ => true
  | _ :: _, [] => false
  | a :: as, b :: bs => a == b && isPrefixB as bs

/-- Contiguous occurrence of a needle inside a haystack, as a Bool. -/
def containsSub (needle : List Char) : List Char → Bool
  | [] => isPrefixB needle []
  | c :: rest => isPrefixB needle (c :: rest) || containsSub needle rest

/-- Model of the JavaScript call hay.includes(needle). -/
def strIncludes (hay needle : String) : Bool :=
  containsSub needle.data hay.data

/-- Model of the JavaScript call s.startsWith(p). -/
def strStartsWith (s p : String) : Bool :=
  isPrefixB p.data s.data

/-- Lower-casing by characters, modelling the JavaScript toLowerCase call
(kernel-reducible, unlike the byte-position based core version). -/
def jsToLower (s : String) : String :=
  String.mk (s.data.map Char.toLower)

/-- Whitespace trimming at both ends, modelling the JavaScript trim call. -/
def jsTrim (s : String) : String :=
  String.mk
    (((s.data.dropWhile Char.isWhitespace).reverse.dropWhile
        Char.isWhitespace).reverse)

/-- Split on a one-character separator, modelling the JavaScript split
calls of the source (all of which use a single character). -/
def splitChars (sep : Char) : List Char → List (List Char)
  | [] => [[]]
  | c :: rest =>
      if c == sep then [] :: splitChars sep rest
      else
        match splitChars sep rest with
        | [] => [[c]]
        | part :: parts => (c :: part) :: parts

/-- String wrapper around splitChars. -/
def splitOnChar (sep : Char) (s : String) : List String :=
  (splitChars sep s.data).map String.mk

/-- Model of the JavaScript Array.join call on strings. -/
def joinWith (sep : String) : List String → String
  | [] => ""
  | [x] => x
  | x :: y :: rest => x ++ sep ++ joinWith sep (y :: rest)

/-! ### WHOIS text parsing (parseWhoisResult in src/app/api/whois/route.ts) -/

/-- Value stored under one key of the parsed WHOIS object: a single string
on the first occurrence of a key, an ordered array after repetitions. -/
inductive WhoisVal where
  | str (s : String)
  | arr (xs : List String)
  deriving DecidableEq, Repr

/-- Field lookup on a JavaScript-object model (first matching key). -/
def objGet (m : List (String × WhoisVal)) (k : String) : Option WhoisVal :=
  match m with
  | [] => none
  | (k0, v0) :: rest => if k0 == k then some v0 else objGet rest k

/-- Field update on a JavaScript-object model: replace the value in place
when the key exists, append the binding otherwise (JS insertion order). -/
def objSet (m : List (String × WhoisVal)) (k : String) (v : WhoisVal) :
    List (String × WhoisVal) :=
  match m with
  | [] => [(k, v)]
  | (k0, v0) :: rest =>
      if k0 == k then (k0, v) :: rest else (k0, v0) :: objSet rest k v

/-- Separator class (whitespace, slash or hyphen) of the regex used when
cleaning WHOIS keys. -/
def isKeySep (c : Char) : Bool :=
  c.isWhitespace || c == '/' || c == '-'

/-- Replacement of every run of separator characters by one underscore,
modelling the global separator-run replace of the source. -/
def squashSeps : List Char → List Char
  | [] => []
  | [c] => if isKeySep c then ['_'] else [c]
  | c1 :: c2 :: rest =>
      if isKeySep c1 then
        if isKeySep c2 then squashSeps (c2 :: rest)
        else '_' :: squashSeps (c2 :: rest)
      else c1 :: squashSeps (c2 :: rest)

/-- Canonical key cleaning of parseWhoisResult: trim, lower-case, then
replace every separator run by an underscore. -/
def cleanWhoisKey (key : String) : String :=
  String.mk (squashSeps (jsToLower (jsTrim key)).data)

/-- One line of the parseWhoisResult loop: a line that contains a colon is
split at every colon, the first part is the key, the rest re-joined with
colons and trimmed is the value; both must be non-empty. -/
def parseWhoisLine (line : String) : Option (String × String) :=
  if strIncludes line ":" then
    match splitOnChar ':' line with
    | [] => none
    | key :: valueParts =>
        let value := jsTrim (joinWith ":" valueParts)
        if key != "" && value != "" then some (cleanWhoisKey key, value)
        else none
  else none

/-- Accumulation step of parseWhoisResult: a fresh key gets the string
value, a repeated key turns into or extends an ordered array. -/
def whoisObjInsert (m : List (String × WhoisVal)) (k : String) (v : String) :
    List (String × WhoisVal) :=
  match objGet m k with
  | none => objSet m k (WhoisVal.str v)
  | some (WhoisVal.str old) => objSet m k (WhoisVal.arr [old, v])
  | some (WhoisVal.arr xs) => objSet m k (WhoisVal.arr (xs ++ [v]))

/-- Model of parseWhoisResult from src/app/api/whois/route.ts: split the
raw text on newlines, drop blank lines, and fold every key/value line
into the object.  The type argument of the source is unused there. -/
def parseWhoisResult (raw : String) (ty : String) : List (String × WhoisVal) :=
  let _ := ty
  let lines := (splitOnChar '\n' raw).filter (fun l => jsTrim l != "")
  lines.foldl
    (fun m line =>
      match parseWhoisLine line with
      | some kv => whoisObjInsert m kv.1 kv.2
      | none => m)
    []

/-- Ordered list of values stored under a key of the parsed object. -/
def whoisValues (m : List (String × WhoisVal)) (k : String) : List String :=
  match objGet m k with
  | none => []
  | some (WhoisVal.str s) => [s]
  | some (WhoisVal.arr xs) => xs

/-- Specification-side reading of the claim: the values of the key/value
lines of the input whose canonical key is k, in input order. -/
def whoisLineValuesFor (raw : String) (k : String) : List String :=
  ((((splitOnChar '\n' raw).filter (fun l => jsTrim l != "")).filterMap
      parseWhoisLine).filter (fun p => p.1 == k)).map (fun p => p.2)

theorem strBeq_comm (a b : String) : (a == b) = (b == a) := by
  by_cases h : a = b
  · subst h; rfl
  · rw [beq_eq_false_iff_ne.mpr h, beq_eq_false_iff_ne.mpr (Ne.symm h)]

theorem objGet_objSet (m : List (String × WhoisVal)) (k : String)
    (v : WhoisVal) (k2 : String) :
    objGet (objSet m k v) k2 = if k2 == k then some v else objGet m k2 := by
  induction m with
  | nil =>
      simp only [objSet, objGet]
      rw [strBeq_comm k k2]
  | cons hd tl ih =>
      obtain ⟨k0, v0⟩ := hd
      by_cases h0 : k0 = k
      · subst h0
        by_cases h2 : k2 = k0
        · subst h2; simp [objSet, objGet]
        · simp [objSet, objGet, beq_eq_false_iff_ne.mpr h2,
            beq_eq_false_iff_ne.mpr (fun hh => h2 hh.symm)]
      · by_cases h2 : k2 = k0
        · subst h2
          simp [objSet, objGet, beq_eq_false_iff_ne.mpr h0,
            beq_eq_false_iff_ne.mpr (fun hh => h0 hh)]
        · simp [objSet, objGet, ih, beq_eq_false_iff_ne.mpr (fun hh => h0 hh),
            beq_eq_false_iff_ne.mpr (fun hh => h2 hh.symm),
            beq_eq_false_iff_ne.mpr (fun hh => h2 hh)]

theorem whoisValues_insert (m : List (String × WhoisVal)) (k0 : String)
    (v : String) (k : String) :
    whoisValues (whoisObjInsert m k0 v) k =
      whoisValues m k ++ (if k == k0 then [v] else []) := by
  unfold whoisObjInsert whoisValues
  by_cases hk : k = k0
  · subst hk
    cases h : objGet m k with
    | none => simp [objGet_objSet, h]
    | some w => cases w with
      | str s => simp [objGet_objSet, h]
      | arr xs => simp [objGet_objSet, h]
  · have e : (k == k0) = false := by simp [beq_iff_eq, hk]
    cases h : objGet m k0 with
    | none => simp [objGet_objSet, e]
    | some w => cases w with
      | str s => simp [objGet_objSet, e]
      | arr xs => simp [objGet_objSet, e]

theorem whoisValues_foldl (lines : List String)
    (m : List (String × WhoisVal)) (k : String) :
    whoisValues
      (lines.foldl
        (fun m line =>
          match parseWhoisLine line with
          | some (kv : String × String) => whoisObjInsert m kv.1 kv.2
          | none => m)
        m) k =
      whoisValues m k ++
        (((lines.filterMap parseWhoisLine).filter
            (fun p => p.1 == k)).map (fun p => p.2)) := by
  induction lines generalizing m with
  | nil => simp
  | cons hd tl ih =>
      simp only [List.foldl_cons, List.filterMap_cons]
      cases h : parseWhoisLine hd with
      | none => simp [h, ih]
      | some kv =>
          obtain ⟨k0, v⟩ := kv
          simp only [h, ih, whoisValues_insert]
          by_cases hk : k0 = k
          · subst hk
            simp [List.filter_cons]
          · have e : (k0 == k) = false := by simp [beq_iff_eq, hk]
            have e2 : (k == k0) = false := by
              simp [beq_iff_eq]; exact fun hkk => hk hkk.symm
            simp [List.filter_cons, e, e2]

/-- C7: repeated occurrences of the same canonical key in WHOIS text
accumulate into a list preserving the input order of the values, never
overwriting earlier values: for every raw text and key, the values stored
by parseWhoisResult under the key are exactly the values of the matching
input lines in input order. -/
theorem parseWhoisResult_accumulates_in_order (raw ty k : String) :
    whoisValues (parseWhoisResult raw ty) k = whoisLineValuesFor raw k := by
  unfold parseWhoisResult whoisLineValuesFor
  have h := whoisValues_foldl
    ((splitOnChar '\n' raw).filter (fun l => jsTrim l != "")) [] k
  simpa [whoisValues, objGet] using h

/-! ### RDAP event parsing (parseEvents in src/lib/rdap-parser.ts) -/

/-- Event of an RDAP response: a free-text action and a timestamp. -/
structure RDAPEvent where
  eventAction : String
  eventDate : String
  deriving DecidableEq, Repr

/-- Date fields produced by parseEvents. -/
structure EventDates where
  creation_date : Option String := none
  registry_expiry_date : Option String := none
  updated_date : Option String := none
  deriving DecidableEq, Repr

/-- Creation-family test of parseEvents, on the lower-cased action. -/
def isCreationAction (action : String) : Bool :=
  strIncludes action "registration" || action == "created" ||
    strIncludes action "create"

/-- Expiry-family test of parseEvents, on the lower-cased action. -/
def isExpiryAction (action : String) : Bool :=
  strIncludes action "expiration" || strIncludes action "expiry" ||
    strIncludes action "expire"

/-- Last-updated-family test of parseEvents, on the lower-cased action. -/
def isUpdatedAction (action : String) : Bool :=
  strIncludes action "last changed" ||
    strIncludes action "last update of rdap database" ||
    strIncludes action "last update of whois database" ||
    strIncludes action "last update" ||
    action == "update" || action == "updated"

/-- Body of the parseEvents loop: the families are tested in order and the
first match sets its date field and skips the rest of the iteration. -/
def parseEventsStep (acc : EventDates) (event : RDAPEvent) : EventDates :=
  let action := jsToLower event.eventAction
  if isCreationAction action then
    { acc with creation_date := some event.eventDate }
  else if isExpiryAction action then
    { acc with registry_expiry_date := some event.eventDate }
  else if isUpdatedAction action then
    { acc with updated_date := some event.eventDate }
  else acc

/-- Model of parseEvents from src/lib/rdap-parser.ts; an undefined events
array is modelled by the empty list, for which the source returns the
empty object. -/
def parseEvents (events : List RDAPEvent) : EventDates :=
  events.foldl parseEventsStep {}

/-- Timestamp of the last event whose lower-cased action satisfies the
predicate, starting from a given earlier value. -/
def lastMatchFrom (p : String → Bool) (a : Option String)
    (events : List RDAPEvent) : Option String :=
  events.foldl
    (fun acc e =>
      if p (jsToLower e.eventAction) then some e.eventDate else acc) a

/-- Expiry family as it effectively applies: the creation family is tested
first and shadows it. -/
def expiryEff (a : String) : Bool :=
  isExpiryAction a && !isCreationAction a

/-- Updated family as it effectively applies: the creation and expiry
families are tested first and shadow it. -/
def updatedEff (a : String) : Bool :=
  isUpdatedAction a && !isExpiryAction a && !isCreationAction a

theorem parseEvents_foldl (evs : List RDAPEvent) (acc : EventDates) :
    evs.foldl parseEventsStep acc =
      { creation_date := lastMatchFrom isCreationAction acc.creation_date evs,
        registry_expiry_date :=
          lastMatchFrom expiryEff acc.registry_expiry_date evs,
        updated_date := lastMatchFrom updatedEff acc.updated_date evs } := by
  induction evs generalizing acc with
  | nil => simp [lastMatchFrom]
  | cons e tl ih =>
      simp only [List.foldl_cons, lastMatchFrom] at ih ⊢
      rw [ih]
      unfold parseEventsStep
      cases hc : isCreationAction (jsToLower e.eventAction) with
      | true => simp [hc, expiryEff, updatedEff]
      | false =>
          cases he : isExpiryAction (jsToLower e.eventAction) with
          | true => simp [hc, he, expiryEff, updatedEff]
          | false =>
              cases hu : isUpdatedAction (jsToLower e.eventAction) with
              | true => simp [hc, he, hu, expiryEff, updatedEff]
              | false => simp [hc, he, hu, expiryEff, updatedEff]

/-- C8 counterexample: the claim says an action containing the substring
expir sets the expiry date, but parseEvents only recognizes the
substrings expiration, expiry and expire; on the action expir no date is
set at all. -/
theorem parseEvents_expir_counterexample :
    strIncludes (jsToLower "expir") "expir" = true ∧
    parseEvents [{ eventAction := "expir", eventDate := "2020-01-01" }] =
      { creation_date := none, registry_expiry_date := none,
        updated_date := none } := by
  constructor
  · rfl
  · rfl

/-- C8 amended: parseEvents maps each event by matching the lower-cased
eventAction against synonym families tested in order (creation first,
then expiry, then last-updated): an action containing registration or
create, or equal to created, sets the creation date; an action containing
expiration, expiry or expire (and not matching the creation family) sets
the expiry date; an action containing last changed or last update, or
equal to update or updated (and not matching the earlier families), sets
the last-updated date; each date ends up as the timestamp of the last
event of its family. -/
theorem parseEvents_synonym_families (evs : List RDAPEvent) :
    parseEvents evs =
      { creation_date := lastMatchFrom isCreationAction none evs,
        registry_expiry_date := lastMatchFrom expiryEff none evs,
        updated_date := lastMatchFrom updatedEff none evs } := by
  unfold parseEvents
  rw [parseEvents_foldl]

/-! ### RDAP response shape and registrar-URL discovery
(src/lib/rdap-client.ts) -/

/-- Hyperlink of an RDAP response; optional JSON members are Option. -/
structure RDAPLink where
  rel : String
  href : String
  title : Option String := none
  type : Option String := none
  deriving DecidableEq, Repr

/-- Entity of an RDAP response; an absent roles or links member behaves
exactly like an empty array in every scan the source performs, so both
are modelled by lists. -/
structure RDAPEntity where
  handle : Option String := none
  roles : List String := []
  links : List RDAPLink := []
  deriving DecidableEq, Repr

/-- RDAP domain response, restricted to the members the embedded engine
reads; absent arrays are modelled by empty lists as for entities. -/
structure RDAPResponse where
  ldhName : Option String := none
  handle : Option String := none
  status : List String := []
  entities : List RDAPEntity := []
  events : List RDAPEvent := []
  links : List RDAPLink := []
  port43 : Option String := none
  deriving DecidableEq, Repr

/-- Model of extractRegistrarRdapUrl: scan the top-level links with the
relation and media-type filter (the title test of the source is
disjoined with true, hence vacuous), then fall back to the links of the
registrar-role entity with the same filter. -/
def extractRegistrarRdapUrl (rdapData : RDAPResponse) : Option String :=
  let fromTop := rdapData.links.find? (fun link =>
    let isRelated := link.rel == "related"
    let isRdap := jsToLower (link.type.getD "") == "application/rdap+json"
    let title := jsToLower (link.title.getD "")
    let titleHints := strIncludes title "sponsoring registrar"
    isRelated && isRdap && (titleHints || true))
  let entityFallback :=
    let registrarEntity :=
      rdapData.entities.find? (fun e => e.roles.contains "registrar")
    let fromEntity := registrarEntity.bind (fun e =>
      e.links.find? (fun link =>
        link.rel == "related" &&
          jsToLower (link.type.getD "") == "application/rdap+json"))
    match fromEntity with
    | some l => if l.href != "" then some l.href else none
    | none => none
  match fromTop with
  | some l => if l.href != "" then some l.href else entityFallback
  | none => entityFallback

/-- Model of extractRegistrarRdapServer: the registrar-role entity link
with relation related and exact media type, reduced to its URL origin by
the platform URL parser, which is passed in as urlOrigin. -/
def extractRegistrarRdapServer (urlOrigin : String → Option String)
    (rdapData : RDAPResponse) : Option String :=
  let registrarEntity :=
    rdapData.entities.find? (fun e => e.roles.contains "registrar")
  match registrarEntity with
  | none => none
  | some ent =>
      let rdapLink := ent.links.find? (fun link =>
        link.rel == "related" && link.type == some "application/rdap+json")
      match rdapLink with
      | some l => if l.href != "" then urlOrigin l.href else none
      | none => none

/-- Concrete registry response for the C3 counterexample: two top-level
related RDAP links, the first without a sponsoring-registrar title, the
second with one. -/
def c3Response : RDAPResponse :=
  { links := [
      { rel := "related", href := "https://rdap.example-a.net/domain/x",
        title := some "Result set", type := some "application/rdap+json" },
      { rel := "related",
        href := "https://registrar.example-b.net/rdap/domain/x",
        title := some "URL of Sponsoring Registrar RDAP Record",
        type := some "application/rdap+json" } ] }

/-- C3 counterexample: the claim says top-level links whose title mentions
sponsoring registrar are preferred over ones that do not, but the title
condition of the source is vacuous; with a non-matching-title link first
and a matching-title link second, the first href is returned. -/
theorem extractRegistrarRdapUrl_counterexample :
    strIncludes (jsToLower "Result set") "sponsoring registrar" = false ∧
    strIncludes (jsToLower "URL of Sponsoring Registrar RDAP Record")
      "sponsoring registrar" = true ∧
    extractRegistrarRdapUrl c3Response =
      some "https://rdap.example-a.net/domain/x" := by
  refine ⟨by decide, by decide, by decide⟩

/-- First top-level link with relation related and media type
application/rdap+json, with no condition on the title. -/
def topRelatedRdapLink (r : RDAPResponse) : Option RDAPLink :=
  r.links.find? (fun link =>
    link.rel == "related" &&
      jsToLower (link.type.getD "") == "application/rdap+json")

/-- Registrar-role entity link with the same relation and media-type
filter, as the specification describes the fallback. -/
def registrarEntityRelatedLink (r : RDAPResponse) : Option RDAPLink :=
  (r.entities.find? (fun e => e.roles.contains "registrar")).bind (fun e =>
    e.links.find? (fun link =>
      link.rel == "related" &&
        jsToLower (link.type.getD "") == "application/rdap+json"))

/-- C3 amended: the scan takes the first top-level link with relation
related and media type application/rdap+json regardless of its title
(no preference for sponsoring-registrar titles); only when there is no
such link, or its href is empty, does it fall back to the registrar-role
entity links with the same relation/type filter. -/
theorem extractRegistrarRdapUrl_first_link_no_title_preference
    (r : RDAPResponse) :
    extractRegistrarRdapUrl r =
      match topRelatedRdapLink r with
      | some l =>
          if l.href != "" then some l.href
          else
            match registrarEntityRelatedLink r with
            | some l2 => if l2.href != "" then some l2.href else none
            | none => none
      | none =>
          match registrarEntityRelatedLink r with
          | some l2 => if l2.href != "" then some l2.href else none
          | none => none := by
  unfold extractRegistrarRdapUrl topRelatedRdapLink registrarEntityRelatedLink
  have hpred : (fun (link : RDAPLink) =>
      let isRelated := link.rel == "related"
      let isRdap := jsToLower (link.type.getD "") == "application/rdap+json"
      let title := jsToLower (link.title.getD "")
      let titleHints := strIncludes title "sponsoring registrar"
      isRelated && isRdap && (titleHints || true)) =
      (fun (link : RDAPLink) =>
        link.rel == "related" &&
          jsToLower (link.type.getD "") == "application/rdap+json") := by
    funext link
    simp
  rw [hpred]

/-! ### RDAP server discovery: static table and IANA bootstrap cache
(src/lib/rdap-client.ts) -/

/-- Generic association-list lookup (JavaScript object read). -/
def assocGet {α : Type} (m : List (String × α)) (k : String) : Option α :=
  match m with
  | [] => none
  | (k0, v0) :: rest => if k0 == k then some v0 else assocGet rest k

/-- Generic association-list upsert (JavaScript object assignment). -/
def assocSet {α : Type} (m : List (String × α)) (k : String) (v : α) :
    List (String × α) :=
  match m with
  | [] => [(k, v)]
  | (k0, v0) :: rest =>
      if k0 == k then (k0, v) :: rest else (k0, v0) :: assocSet rest k v

/-- Network operations a run can perform, recorded as a trace. -/
inductive NetEvent where
  | fetch (url : String)
  | tcp (server : String) (query : String)
  | execWhois (host : Option String) (query : String)
  deriving DecidableEq, Repr

/-- Static RDAP server table RDAP_SERVERS of src/lib/rdap-client.ts. -/
def RDAP_SERVERS (tld : String) : Option String :=
  match tld with
  | "com" => some "https://rdap.verisign.com/com/v1"
  | "net" => some "https://rdap.verisign.com/net/v1"
  | "org" => some "https://rdap.publicinterestregistry.org/rdap"
  | "info" => some "https://rdap.afilias.net/rdap/afilias"
  | "biz" => some "https://rdap.afilias.net/rdap/afilias"
  | "cn" => some "https://rdap.cnnic.cn"
  | "uk" => some "https://rdap.nominet.uk"
  | "de" => some "https://rdap.denic.de"
  | "fr" => some "https://rdap.nic.fr"
  | "jp" => some "https://rdap.nic.ad.jp"
  | "xyz" => some "https://rdap.centralnic.com/xyz"
  | "top" => some "https://rdap.nic.top"
  | "online" => some "https://rdap.centralnic.com/online"
  | "site" => some "https://rdap.centralnic.com/site"
  | _ => none

/-- Model of getTLD: last dot-separated part of the lower-cased domain. -/
def getTLD (domain : String) : String :=
  (splitOnChar '.' (jsToLower domain)).getLast?.getD ""

/-- Bootstrap document URL. -/
def BOOTSTRAP_URL : String := "https://data.iana.org/rdap/dns.json"

/-- Bootstrap cache TTL in milliseconds (24 hours). -/
def BOOTSTRAP_TTL : Nat := 24 * 60 * 60 * 1000

/-- Mutable state of the bootstrap directory cache. -/
structure BootstrapState where
  dynamicRdapMap : Option (List (String × List String)) := none
  lastBootstrapFetch : Nat := 0
  deriving DecidableEq, Repr

/-- Parsed IANA bootstrap document: its services array of
(tld-list, server-list) pairs; a missing or non-array member is the
empty list, for which the source builds the same empty map. -/
structure BootstrapDoc where
  services : List (List String × List String) := []
  deriving DecidableEq, Repr

/-- Outcome of one HTTP fetch of the bootstrap document: a network error
or an HTTP response with its ok flag and the JSON parse outcome. -/
inductive BootFetch where
  | netErr
  | http (ok : Bool) (body : Except Unit BootstrapDoc)
  deriving Repr

/-- Removal of every trailing slash, as the global trailing-slash replace
of the source does. -/
def stripTrailingSlashes (s : String) : String :=
  String.mk ((s.data.reverse.dropWhile (fun c => c == '/')).reverse)

/-- Removal of the first occurrence of a character, modelling the
single-occurrence string replace of JavaScript. -/
def removeFirstChar (c : Char) : List Char → List Char
  | [] => []
  | x :: rest => if x == c then rest else x :: removeFirstChar c rest

/-- TLD normalization of the bootstrap loader: drop the first dot, then
lower-case. -/
def normalizeBootstrapTld (tld : String) : String :=
  jsToLower (String.mk (removeFirstChar '.' tld.data))

/-- Rebuild of the TLD map from a bootstrap document, from scratch. -/
def buildBootstrapMap (doc : BootstrapDoc) : List (String × List String) :=
  doc.services.foldl
    (fun map entry =>
      let bases := (entry.2.filter (fun s => s != "")).map stripTrailingSlashes
      if bases.length > 0 then
        entry.1.foldl
          (fun m tld => assocSet m (normalizeBootstrapTld tld) bases) map
      else map)
    []

/-- Model of ensureBootstrapLoaded: refresh the map only when absent or
older than the TTL; any fetch, non-ok or parse failure keeps the
previous state and updates nothing. -/
def ensureBootstrapLoaded (fetchBootstrap : BootFetch) (st : BootstrapState)
    (now : Nat) : BootstrapState × List NetEvent :=
  if st.dynamicRdapMap.isSome && now - st.lastBootstrapFetch < BOOTSTRAP_TTL
  then (st, [])
  else
    match fetchBootstrap with
    | BootFetch.netErr => (st, [NetEvent.fetch BOOTSTRAP_URL])
    | BootFetch.http false _ => (st, [NetEvent.fetch BOOTSTRAP_URL])
    | BootFetch.http true (Except.error _) => (st, [NetEvent.fetch BOOTSTRAP_URL])
    | BootFetch.http true (Except.ok doc) =>
        ({ dynamicRdapMap := some (buildBootstrapMap doc),
           lastBootstrapFetch := now }, [NetEvent.fetch BOOTSTRAP_URL])

/-- Model of getRDAPServersAsync: after ensuring the bootstrap map is
loaded, a non-empty dynamic entry for the TLD is used as is, and the
static table entry is consulted only otherwise. -/
def getRDAPServersAsync (fetchBootstrap : BootFetch) (st : BootstrapState)
    (now : Nat) (domain : String) :
    List String × BootstrapState × List NetEvent :=
  let s2 := ensureBootstrapLoaded fetchBootstrap st now
  let tld := getTLD domain
  let dynamic := s2.1.dynamicRdapMap.bind (fun m => assocGet m tld)
  let staticBase := RDAP_SERVERS tld
  let fallback := match staticBase with
    | some s => [s]
    | none => []
  let servers := match dynamic with
    | some l => if l.length > 0 then l else fallback
    | none => fallback
  (servers, s2.1, s2.2)

/-- Bootstrap state of the C2 failing input: a fresh dynamic map with an
entry for com. -/
def c2State : BootstrapState :=
  { dynamicRdapMap := some [("com", ["https://rdap.example.net"])],
    lastBootstrapFetch := 0 }

/-- C2: the claim (and the comment on the dynamic map in the source,
which says the bootstrap map has lower priority than the static table)
requires the static URL for a statically supported TLD to come first;
the lookup instead returns only the bootstrap-derived servers whenever
they are non-empty — com has a static entry, yet with a bootstrap entry
present the static URL does not appear in the result at all. -/
theorem getRDAPServersAsync_bootstrap_shadows_static :
    RDAP_SERVERS "com" = some "https://rdap.verisign.com/com/v1" ∧
    getRDAPServersAsync BootFetch.netErr c2State 0 "example.com" =
      (["https://rdap.example.net"], c2State, []) ∧
    "https://rdap.verisign.com/com/v1" ∉
      (getRDAPServersAsync BootFetch.netErr c2State 0 "example.com").1 := by
  refine ⟨rfl, by decide, by decide⟩

/-! ### RDAP client query (queryDomainRDAP in src/lib/rdap-client.ts) -/

/-- Which authority ultimately answered an RDAP query. -/
inductive RdapSource where
  | registrar
  | registry
  deriving DecidableEq, Repr

/-- Value returned by queryDomainRDAP: the response enriched with the
source tag and both raw answers. -/
structure RDAPQueryResult where
  data : RDAPResponse
  rdapSource : Option RdapSource := none
  registryRaw : Option RDAPResponse := none
  registrarRaw : Option RDAPResponse := none
  deriving DecidableEq, Repr

/-- Entry of the short-lived RDAP cache. -/
structure RdapCacheEntry where
  data : RDAPQueryResult
  rdapSource : Option RdapSource
  timestamp : Nat
  deriving DecidableEq, Repr

/-- RDAP cache TTL in milliseconds (5 minutes). -/
def RDAP_CACHE_TTL_MS : Nat := 5 * 60 * 1000

/-- Process-wide mutable state of the RDAP client. -/
structure RdapClientState where
  bootstrap : BootstrapState := {}
  rdapCache : List (String × RdapCacheEntry) := []
  deriving DecidableEq, Repr

/-- Outcome of one RDAP HTTP fetch: network error or timeout, or an HTTP
response with its ok flag and JSON parse outcome. -/
inductive RdapFetch where
  | netErr
  | http (ok : Bool) (body : Except Unit RDAPResponse)
  deriving Repr

/-- Platform primitives the RDAP client consumes: IDN-to-ASCII domain
normalization, URL query-string encoding, URL origin extraction, and the
two HTTP fetch oracles. -/
structure RdapEnv where
  toASCII : String → String
  encodeParams : List (String × String) → String
  urlOrigin : String → Option String
  fetchRdap : String → RdapFetch
  fetchBootstrap : BootFetch

/-- Options of queryDomainRDAP. -/
structure RdapOptions where
  queryParams : Option (List (String × String)) := none
  preferSource : Option RdapSource := none

/-- Failures queryDomainRDAP can raise. -/
inductive RdapErr where
  | noServerFound (domain : String)
  | allServersFailed (domain : String)
  deriving DecidableEq, Repr

/-- Message text of the two RDAP errors, as thrown by the source. -/
def rdapErrMessage : RdapErr → String
  | RdapErr.noServerFound d => "No RDAP server found for domain: " ++ d
  | RdapErr.allServersFailed d => "RDAP query failed on all servers for " ++ d

/-- Query-string of the options, empty when no queryParams were given. -/
def paramsStrOf (env : RdapEnv) (options : RdapOptions) : String :=
  match options.queryParams with
  | none => ""
  | some ps => "?" ++ env.encodeParams ps

/-- Registry loop of queryDomainRDAP: try each candidate server base in
order; a network error, a non-2xx status or a JSON parse failure moves
on to the next candidate; stop at the first parsed 2xx body. -/
def tryServers (env : RdapEnv) (ascii paramsStr : String) :
    List String → Option RDAPResponse × List NetEvent
  | [] => (none, [])
  | serverBase :: rest =>
      let registryUrl := serverBase ++ "/domain/" ++ ascii ++ paramsStr
      match env.fetchRdap registryUrl with
      | RdapFetch.http true (Except.ok d) =>
          (some d, [NetEvent.fetch registryUrl])
      | RdapFetch.http true (Except.error _) =>
          let r := tryServers env ascii paramsStr rest
          (r.1, NetEvent.fetch registryUrl :: r.2)
      | RdapFetch.http false _ =>
          let r := tryServers env ascii paramsStr rest
          (r.1, NetEvent.fetch registryUrl :: r.2)
      | RdapFetch.netErr =>
          let r := tryServers env ascii paramsStr rest
          (r.1, NetEvent.fetch registryUrl :: r.2)

/-- Removal of one trailing slash (the non-global trailing-slash replace
of the source). -/
def stripOneTrailingSlash (s : String) : String :=
  if s.data.getLast? == some '/' then String.mk s.data.dropLast else s

/-- Registrar step of queryDomainRDAP: when a registrar RDAP URL or
server was extracted from the registry answer and the caller did not
prefer the registry, issue one more query against it; only a parsed 2xx
answer replaces the registry data, every failure silently keeps it.  The
branch reached when neither a URL nor a server exists is cut off by the
guard. -/
def registrarStep (env : RdapEnv) (ascii paramsStr : String)
    (registryData : RDAPResponse) (preferred : Option RdapSource) :
    RDAPQueryResult × List NetEvent :=
  let finalData : RDAPQueryResult :=
    { data := registryData, rdapSource := some RdapSource.registry,
      registryRaw := some registryData }
  let extractedUrl := extractRegistrarRdapUrl registryData
  let registrarRdapServer :=
    if extractedUrl.isSome then none
    else extractRegistrarRdapServer env.urlOrigin registryData
  if (extractedUrl.isSome || registrarRdapServer.isSome) &&
      preferred != some RdapSource.registry then
    let registrarUrl :=
      match extractedUrl with
      | some u =>
          let clean := jsTrim (String.mk (u.data.filter (fun c => c != '`')))
          if strIncludes clean "/domain/" then
            if paramsStr != "" then
              if strIncludes clean "?" then
                clean ++ "&" ++ String.mk paramsStr.data.tail
              else clean ++ paramsStr
            else clean
          else stripOneTrailingSlash clean ++ "/domain/" ++ ascii ++ paramsStr
      | none =>
          match registrarRdapServer with
          | some s => stripOneTrailingSlash s ++ "/domain/" ++ ascii ++ paramsStr
          | none => ""
    match env.fetchRdap registrarUrl with
    | RdapFetch.http true (Except.ok d) =>
        ({ data := d, rdapSource := some RdapSource.registrar,
           registryRaw := some registryData, registrarRaw := some d },
         [NetEvent.fetch registrarUrl])
    | RdapFetch.http true (Except.error _) =>
        (finalData, [NetEvent.fetch registrarUrl])
    | RdapFetch.http false _ => (finalData, [NetEvent.fetch registrarUrl])
    | RdapFetch.netErr => (finalData, [NetEvent.fetch registrarUrl])
  else (finalData, [])

/-- Cache-miss body of queryDomainRDAP: resolve candidate servers, fail
with NoServerFound on an empty list, run the registry loop, fail with
AllServersFailed when it exhausts, otherwise run the registrar step and
write the final data to the cache. -/
def queryDomainRDAPUncached (env : RdapEnv) (st : RdapClientState)
    (now : Nat) (asciiDomain : String) (options : RdapOptions) :
    Except RdapErr RDAPQueryResult × RdapClientState × List NetEvent :=
  let g := getRDAPServersAsync env.fetchBootstrap st.bootstrap now asciiDomain
  let servers := g.1
  let st1 : RdapClientState := { st with bootstrap := g.2.1 }
  let tr0 := g.2.2
  if servers.isEmpty then
    (Except.error (RdapErr.noServerFound asciiDomain), st1, tr0)
  else
    let paramsStr := paramsStrOf env options
    let t := tryServers env asciiDomain paramsStr servers
    match t.1 with
    | none =>
        (Except.error (RdapErr.allServersFailed asciiDomain), st1, tr0 ++ t.2)
    | some registryData =>
        let r := registrarStep env asciiDomain paramsStr registryData
          options.preferSource
        let finalData := r.1
        let st2 : RdapClientState :=
          { st1 with
            rdapCache := assocSet st1.rdapCache asciiDomain
              { data := finalData, rdapSource := finalData.rdapSource,
                timestamp := now } }
        (Except.ok finalData, st2, tr0 ++ t.2 ++ r.2)

/-- Model of queryDomainRDAP: normalize the domain to ASCII, return a
fresh cache entry immediately (spread with the stored rdapSource), and
run the uncached body otherwise. -/
def queryDomainRDAP (env : RdapEnv) (st : RdapClientState) (now : Nat)
    (domain : String) (options : RdapOptions) :
    Except RdapErr RDAPQueryResult × RdapClientState × List NetEvent :=
  let asciiDomain := env.toASCII domain
  match assocGet st.rdapCache asciiDomain with
  | some cached =>
      if now - cached.timestamp < RDAP_CACHE_TTL_MS then
        (Except.ok { cached.data with rdapSource := cached.rdapSource },
         st, [])
      else queryDomainRDAPUncached env st now asciiDomain options
  | none => queryDomainRDAPUncached env st now asciiDomain options

theorem assocGet_assocSet {α : Type} (m : List (String × α)) (k : String)
    (v : α) (k2 : String) :
    assocGet (assocSet m k v) k2 = if k2 == k then some v else assocGet m k2 := by
  induction m with
  | nil =>
      simp only [assocSet, assocGet]
      rw [strBeq_comm k k2]
  | cons hd tl ih =>
      obtain ⟨k0, v0⟩ := hd
      by_cases h0 : k0 = k
      · subst h0
        by_cases h2 : k2 = k0
        · subst h2; simp [assocSet, assocGet]
        · simp [assocSet, assocGet, beq_eq_false_iff_ne.mpr h2,
            beq_eq_false_iff_ne.mpr (fun hh => h2 hh.symm)]
      · by_cases h2 : k2 = k0
        · subst h2
          simp [assocSet, assocGet, beq_eq_false_iff_ne.mpr h0,
            beq_eq_false_iff_ne.mpr (fun hh => h0 hh)]
        · simp [assocSet, assocGet, ih, beq_eq_false_iff_ne.mpr (fun hh => h0 hh),
            beq_eq_false_iff_ne.mpr (fun hh => h2 hh.symm),
            beq_eq_false_iff_ne.mpr (fun hh => h2 hh)]

/-- Body of the first candidate server whose fetch yields a parsed 2xx
response, scanning in list order (specification-side reading of the
registry loop). -/
def firstRdapSuccess (env : RdapEnv) (ascii paramsStr : String) :
    List String → Option RDAPResponse
  | [] => none
  | serverBase :: rest =>
      match env.fetchRdap (serverBase ++ "/domain/" ++ ascii ++ paramsStr) with
      | RdapFetch.http true (Except.ok d) => some d
      | _ => firstRdapSuccess env ascii paramsStr rest

theorem tryServers_fst (env : RdapEnv) (a p : String) (l : List String) :
    (tryServers env a p l).1 = firstRdapSuccess env a p l := by
  induction l with
  | nil => rfl
  | cons s rest ih =>
      simp only [tryServers, firstRdapSuccess]
      cases h : env.fetchRdap (s ++ "/domain/" ++ a ++ p) with
      | netErr => simpa using ih
      | http ok body =>
          cases ok with
          | false => simpa using ih
          | true =>
              cases body with
              | error e => simpa using ih
              | ok d => rfl

theorem registrarStep_registryRaw (env : RdapEnv) (a p : String)
    (d : RDAPResponse) (pref : Option RdapSource) :
    (registrarStep env a p d pref).1.registryRaw = some d := by
  simp only [registrarStep]
  repeat' split
  all_goals rfl

theorem queryDomainRDAPUncached_fst (env : RdapEnv) (st : RdapClientState)
    (now : Nat) (ascii : String) (o : RdapOptions) :
    (queryDomainRDAPUncached env st now ascii o).1 =
      match (getRDAPServersAsync env.fetchBootstrap st.bootstrap now ascii).1,
        firstRdapSuccess env ascii (paramsStrOf env o)
          (getRDAPServersAsync env.fetchBootstrap st.bootstrap now ascii).1 with
      | [], _ => Except.error (RdapErr.noServerFound ascii)
      | _ :: _, none => Except.error (RdapErr.allServersFailed ascii)
      | _ :: _, some d =>
          Except.ok (registrarStep env ascii (paramsStrOf env o) d
            o.preferSource).1 := by
  simp only [queryDomainRDAPUncached]
  cases hl : (getRDAPServersAsync env.fetchBootstrap st.bootstrap now
      ascii).1 with
  | nil => simp
  | cons s rest =>
      have ht := tryServers_fst env ascii (paramsStrOf env o) (s :: rest)
      cases hf : firstRdapSuccess env ascii (paramsStrOf env o)
          (s :: rest) with
      | none => rw [hf] at ht; simp [ht]
      | some d => rw [hf] at ht; simp [ht]

/-- C4: with an empty RDAP cache, queryDomainRDAP fails with
NoServerFound exactly when the candidate list is empty; otherwise it
scans candidates in order (skipping network errors, non-2xx statuses and
parse failures) and succeeds with the first parsed 2xx body as the
registry answer, failing with AllServersFailed exactly when every
candidate is exhausted. -/
theorem queryDomainRDAP_tries_servers_in_order
    (env : RdapEnv) (st : RdapClientState) (now : Nat) (domain : String)
    (options : RdapOptions) (ascii : String) (servers : List String)
    (res : Except RdapErr RDAPQueryResult)
    (hcache : st.rdapCache = [])
    (hascii : ascii = env.toASCII domain)
    (hservers : servers =
      (getRDAPServersAsync env.fetchBootstrap st.bootstrap now ascii).1)
    (hres : res = (queryDomainRDAP env st now domain options).1) :
    (res = Except.error (RdapErr.noServerFound ascii) ↔ servers = []) ∧
    (res = Except.error (RdapErr.allServersFailed ascii) ↔
      servers ≠ [] ∧
        firstRdapSuccess env ascii (paramsStrOf env options) servers = none) ∧
    (∀ d, firstRdapSuccess env ascii (paramsStrOf env options) servers =
        some d →
      ∃ r, res = Except.ok r ∧ r.registryRaw = some d) := by
  subst hascii
  subst hservers
  subst hres
  have hq : (queryDomainRDAP env st now domain options).1 =
      (queryDomainRDAPUncached env st now (env.toASCII domain) options).1 := by
    simp only [queryDomainRDAP, hcache, assocGet]
  rw [hq, queryDomainRDAPUncached_fst]
  cases hl : (getRDAPServersAsync env.fetchBootstrap st.bootstrap now
      (env.toASCII domain)).1 with
  | nil =>
      refine ⟨by simp, by simp [firstRdapSuccess], ?_⟩
      intro d hd
      simp [firstRdapSuccess] at hd
  | cons s rest =>
      cases hf : firstRdapSuccess env (env.toASCII domain)
          (paramsStrOf env options) (s :: rest) with
      | none => simp
      | some d0 =>
          refine ⟨by simp, by simp, ?_⟩
          intro d hd
          cases Option.some.inj hd
          exact ⟨_, rfl, registrarStep_registryRaw env _ _ _ _⟩

/-- Well-formedness of the RDAP cache: each entry carries the source tag
of its stored data (every entry the code writes does). -/
def rdapCacheWF (st : RdapClientState) : Prop :=
  ∀ k c, assocGet st.rdapCache k = some c → c.rdapSource = c.data.rdapSource

theorem queryDomainRDAPUncached_ok_caches (env : RdapEnv)
    (st : RdapClientState) (now : Nat) (ascii : String) (o : RdapOptions)
    (r : RDAPQueryResult) (st1 : RdapClientState) (tr : List NetEvent)
    (h : queryDomainRDAPUncached env st now ascii o = (Except.ok r, st1, tr)) :
    ∃ c, assocGet st1.rdapCache ascii = some c ∧
      c.data = r ∧ c.rdapSource = r.rdapSource ∧ c.timestamp = now := by
  simp only [queryDomainRDAPUncached] at h
  cases hl : (getRDAPServersAsync env.fetchBootstrap st.bootstrap now
      ascii).1 with
  | nil => rw [hl] at h; simp at h
  | cons s rest =>
      rw [hl] at h
      rw [if_neg (by simp)] at h
      cases hfv : (tryServers env ascii (paramsStrOf env o) (s :: rest)).1 with
      | none => rw [hfv] at h; simp at h
      | some registryData =>
          rw [hfv] at h
          simp only [Prod.mk.injEq, Except.ok.injEq] at h
          obtain ⟨h1, h2, h3⟩ := h
          refine ⟨⟨(registrarStep env ascii (paramsStrOf env o) registryData
              o.preferSource).1,
            (registrarStep env ascii (paramsStrOf env o) registryData
              o.preferSource).1.rdapSource, now⟩, ?_, ?_, ?_, rfl⟩
          · rw [← h2]
            simp [assocGet_assocSet]
          · exact h1
          · simp [h1]

theorem queryDomainRDAP_ok_caches (env : RdapEnv) (st : RdapClientState)
    (now : Nat) (d : String) (o : RdapOptions) (r : RDAPQueryResult)
    (st1 : RdapClientState) (tr : List NetEvent)
    (hwf : rdapCacheWF st)
    (h : queryDomainRDAP env st now d o = (Except.ok r, st1, tr)) :
    ∃ c, assocGet st1.rdapCache (env.toASCII d) = some c ∧
      c.data = r ∧ c.rdapSource = r.rdapSource := by
  simp only [queryDomainRDAP] at h
  cases hg : assocGet st.rdapCache (env.toASCII d) with
  | some cached =>
      rw [hg] at h
      dsimp only at h
      by_cases htl : now - cached.timestamp < RDAP_CACHE_TTL_MS
      · rw [if_pos htl] at h
        simp only [Prod.mk.injEq, Except.ok.injEq] at h
        obtain ⟨h1, h2, h3⟩ := h
        have hsrc := hwf (env.toASCII d) cached hg
        refine ⟨cached, ?_, ?_, ?_⟩
        · rw [← h2]; exact hg
        · rw [← h1, hsrc]
        · rw [← h1]
      · rw [if_neg htl] at h
        obtain ⟨c, hc1, hc2, hc3, _⟩ :=
          queryDomainRDAPUncached_ok_caches env st now (env.toASCII d) o r
            st1 tr h
        exact ⟨c, hc1, hc2, hc3⟩
  | none =>
      rw [hg] at h
      obtain ⟨c, hc1, hc2, hc3, _⟩ :=
        queryDomainRDAPUncached_ok_caches env st now (env.toASCII d) o r
          st1 tr h
      exact ⟨c, hc1, hc2, hc3⟩

/-- C9: the RDAP cache is keyed by the ASCII domain only; after any
successful call, a second call within the entry TTL with the same
ASCII-normalized domain returns the first result unchanged, performs no
network operation and leaves the state untouched, whatever its own
options (queryParams and preferSource included) are. -/
theorem queryDomainRDAP_cache_ignores_options (env : RdapEnv)
    (st : RdapClientState) (now1 : Nat) (d1 : String) (o1 : RdapOptions)
    (r : RDAPQueryResult) (st1 : RdapClientState) (tr1 : List NetEvent)
    (now2 : Nat) (d2 : String) (o2 : RdapOptions)
    (hwf : rdapCacheWF st)
    (h1 : queryDomainRDAP env st now1 d1 o1 = (Except.ok r, st1, tr1))
    (ha : env.toASCII d2 = env.toASCII d1)
    (hfresh : ∀ c, assocGet st1.rdapCache (env.toASCII d1) = some c →
      now2 - c.timestamp < RDAP_CACHE_TTL_MS) :
    queryDomainRDAP env st1 now2 d2 o2 = (Except.ok r, st1, []) := by
  obtain ⟨c, hc, hcd, hcs⟩ :=
    queryDomainRDAP_ok_caches env st now1 d1 o1 r st1 tr1 hwf h1
  simp only [queryDomainRDAP, ha, hc]
  rw [if_pos (hfresh c hc)]
  simp [hcd, hcs]

/-- Concrete platform environment for the witnesses: identity ASCII
normalization and an RDAP fetch that always answers a parsed empty 2xx
response. -/
def envW : RdapEnv :=
  { toASCII := fun s => s,
    encodeParams := fun _ => "",
    urlOrigin := fun _ => none,
    fetchRdap := fun _ => RdapFetch.http true (Except.ok {}),
    fetchBootstrap := BootFetch.netErr }

/-- Bootstrap state of the witnesses: fresh dynamic entry for com. -/
def bootW : BootstrapState :=
  { dynamicRdapMap := some [("com", ["https://rdap.example.net"])],
    lastBootstrapFetch := 0 }

/-- Initial state for the witnesses: fresh bootstrap entry for com, empty
RDAP cache. -/
def stW : RdapClientState :=
  { bootstrap := bootW, rdapCache := [] }

/-- Result of the first witness query. -/
def rW : RDAPQueryResult :=
  { data := {}, rdapSource := some RdapSource.registry,
    registryRaw := some {}, registrarRaw := none }

/-- Cache entry created by the first witness query. -/
def entryW : RdapCacheEntry :=
  { data := rW, rdapSource := some RdapSource.registry, timestamp := 0 }

/-- State after the first witness query. -/
def st1W : RdapClientState :=
  { bootstrap := bootW, rdapCache := [("example.com", entryW)] }

/-- Options of the second witness query, differing from the first in both
queryParams and preferSource. -/
def o2W : RdapOptions :=
  { queryParams := some [("a", "b")], preferSource := some RdapSource.registry }

theorem queryDomainRDAP_tries_servers_in_order_witness :
    ((Except.ok rW : Except RdapErr RDAPQueryResult) =
        Except.error (RdapErr.noServerFound "example.com") ↔
      (["https://rdap.example.net"] : List String) = []) ∧
    ((Except.ok rW : Except RdapErr RDAPQueryResult) =
        Except.error (RdapErr.allServersFailed "example.com") ↔
      (["https://rdap.example.net"] : List String) ≠ [] ∧
        firstRdapSuccess envW "example.com" (paramsStrOf envW {})
          ["https://rdap.example.net"] = none) ∧
    (∀ d, firstRdapSuccess envW "example.com" (paramsStrOf envW {})
        ["https://rdap.example.net"] = some d →
      ∃ r, (Except.ok rW : Except RdapErr RDAPQueryResult) = Except.ok r ∧
        r.registryRaw = some d) :=
  queryDomainRDAP_tries_servers_in_order envW stW 0 "example.com" {}
    "example.com" ["https://rdap.example.net"] (Except.ok rW)
    rfl rfl rfl rfl

theorem queryDomainRDAP_cache_ignores_options_witness :
    queryDomainRDAP envW st1W 1000 "example.com" o2W =
      (Except.ok rW, st1W, []) :=
  queryDomainRDAP_cache_ignores_options envW stW 0 "example.com" {} rW st1W
    [NetEvent.fetch "https://rdap.example.net/domain/example.com"]
    1000 "example.com" o2W
    (fun _ _ h => Option.noConfusion h)
    rfl
    rfl
    (fun c hc => by
      have hc2 : some entryW = some c := hc
      cases Option.some.inj hc2
      decide)

/-! ### WHOIS socket client (tcpWhoisQuery in src/app/api/whois/route.ts)

The handler code of tcpWhoisQuery is embedded as a state machine over the
sequence of socket events delivered by the runtime; the single socket
timeout firing before the remote end closes is the event order in which
the timeout event precedes any end or close event. -/

/-- Socket events the tcpWhoisQuery handlers react to. -/
inductive SockEvent where
  | timeoutEv
  | errorEv
  | dataEv (chunk : String)
  | endEv
  | closeEv
  deriving DecidableEq, Repr

/-- Settlement of the promise returned by tcpWhoisQuery. -/
inductive TcpOutcome where
  | resolved (text : String)
  | rejectedTimeout
  | rejectedError
  deriving DecidableEq, Repr

/-- State of one tcpWhoisQuery call: accumulated chunks, the timedOut
flag, whether the socket was destroyed, and the promise settlement (a
promise settles at most once; later settlements are ignored). -/
structure TcpState where
  chunks : List String := []
  timedOut : Bool := false
  destroyed : Bool := false
  settled : Option TcpOutcome := none
  deriving DecidableEq, Repr

/-- First settlement wins, as for a JavaScript promise. -/
def settle (st : TcpState) (o : TcpOutcome) : TcpState :=
  match st.settled with
  | some _ => st
  | none => { st with settled := some o }

/-- Concatenation and UTF-8 decoding of the buffered chunks. -/
def concatChunks (chunks : List String) : String :=
  chunks.foldl (fun acc c => acc ++ c) ""

/-- Event handlers of tcpWhoisQuery: timeout sets the flag, destroys the
socket and rejects; error destroys and rejects; data buffers the chunk;
end resolves with the full text unless the timeout fired; close resolves
with the buffered text when the timeout did not fire and data exists. -/
def tcpStep (st : TcpState) : SockEvent → TcpState
  | SockEvent.timeoutEv =>
      settle { st with timedOut := true, destroyed := true }
        TcpOutcome.rejectedTimeout
  | SockEvent.errorEv =>
      settle { st with destroyed := true } TcpOutcome.rejectedError
  | SockEvent.dataEv chunk => { st with chunks := st.chunks ++ [chunk] }
  | SockEvent.endEv =>
      if st.timedOut then st
      else settle st (TcpOutcome.resolved (concatChunks st.chunks))
  | SockEvent.closeEv =>
      if !st.timedOut && !st.chunks.isEmpty then
        settle st (TcpOutcome.resolved (concatChunks st.chunks))
      else st

/-- Run of one tcpWhoisQuery call over a socket event sequence. -/
def tcpRun (events : List SockEvent) : TcpState :=
  events.foldl tcpStep {}

/-- Default port of tcpWhoisQuery. -/
def tcpWhoisDefaultPort : Nat := 43

/-- Default timeout of tcpWhoisQuery in milliseconds. -/
def tcpWhoisDefaultTimeoutMs : Nat := 12000

/-- Single line written to the socket after connecting. -/
def tcpWhoisPayload (query : String) : String := query ++ "\r\n"

/-- Chunk carried by a data event. -/
def dataChunkOf : SockEvent → Option String
  | SockEvent.dataEv s => some s
  | _ => none

theorem tcpRun_data_only (pre : List SockEvent) (st : TcpState)
    (hdata : ∀ e ∈ pre, ∃ s, e = SockEvent.dataEv s) :
    pre.foldl tcpStep st =
      { st with chunks := st.chunks ++ pre.filterMap dataChunkOf } := by
  induction pre generalizing st with
  | nil => simp
  | cons e rest ih =>
      obtain ⟨s, rfl⟩ := hdata e (List.mem_cons_self e rest)
      have hrest : ∀ e ∈ rest, ∃ s, e = SockEvent.dataEv s :=
        fun e he => hdata e (List.mem_cons_of_mem _ he)
      simp only [List.foldl_cons, tcpStep, ih _ hrest, List.filterMap_cons,
        dataChunkOf]
      simp [List.append_assoc]

theorem tcpRun_settled_timeout_stable (evs : List SockEvent) (st : TcpState)
    (hset : st.settled = some TcpOutcome.rejectedTimeout)
    (hto : st.timedOut = true) (hd : st.destroyed = true) :
    (evs.foldl tcpStep st).settled = some TcpOutcome.rejectedTimeout ∧
      (evs.foldl tcpStep st).destroyed = true := by
  induction evs generalizing st with
  | nil => exact ⟨hset, hd⟩
  | cons e rest ih =>
      cases e with
      | timeoutEv =>
          exact ih _ (by simp [tcpStep, settle, hset]) (by simp [tcpStep, settle, hset])
            (by simp [tcpStep, settle, hset])
      | errorEv =>
          exact ih _ (by simp [tcpStep, settle, hset]) (by simp [tcpStep, settle, hset, hto])
            (by simp [tcpStep, settle, hset])
      | dataEv s =>
          exact ih _ (by simp [tcpStep, hset]) (by simp [tcpStep, hto])
            (by simp [tcpStep, hd])
      | endEv =>
          exact ih _ (by simp [tcpStep, hto, hset]) (by simp [tcpStep, hto])
            (by simp [tcpStep, hto, hd])
      | closeEv =>
          exact ih _ (by simp [tcpStep, hto, hset]) (by simp [tcpStep, hto])
            (by simp [tcpStep, hto, hd])

/-- C6: the default timeout is 12000 ms; whenever the socket timeout
fires before any end or close event (only data arrived so far), the call
settles rejected with the timeout error and the socket is destroyed,
whatever events follow; and when the connection closes after buffered
data without an end event or timeout having been observed, the partially
accumulated text is resolved rather than discarded. -/
theorem tcpWhoisQuery_timeout_and_partial_data :
    tcpWhoisDefaultTimeoutMs = 12000 ∧
    (∀ pre post : List SockEvent,
      (∀ e ∈ pre, ∃ s, e = SockEvent.dataEv s) →
      (tcpRun (pre ++ SockEvent.timeoutEv :: post)).settled =
          some TcpOutcome.rejectedTimeout ∧
        (tcpRun (pre ++ SockEvent.timeoutEv :: post)).destroyed = true) ∧
    (∀ pre : List SockEvent,
      (∀ e ∈ pre, ∃ s, e = SockEvent.dataEv s) →
      pre ≠ [] →
      (tcpRun (pre ++ [SockEvent.closeEv])).settled =
        some (TcpOutcome.resolved
          (concatChunks (pre.filterMap dataChunkOf)))) := by
  refine ⟨rfl, ?_, ?_⟩
  · intro pre post hdata
    unfold tcpRun
    rw [List.foldl_append, tcpRun_data_only pre _ hdata]
    simp only [List.foldl_cons]
    exact tcpRun_settled_timeout_stable post _ (by simp [tcpStep, settle])
      (by simp [tcpStep, settle]) (by simp [tcpStep, settle])
  · intro pre hdata hne
    unfold tcpRun
    rw [List.foldl_append, tcpRun_data_only pre _ hdata]
    have hchunks : pre.filterMap dataChunkOf ≠ [] := by
      cases pre with
      | nil => exact absurd rfl hne
      | cons e rest =>
          obtain ⟨s, rfl⟩ := hdata e (List.mem_cons_self e rest)
          simp [List.filterMap_cons, dataChunkOf]
    cases hfm : pre.filterMap dataChunkOf with
    | nil => exact absurd hfm hchunks
    | cons c cs => simp [tcpStep, settle, hfm]

theorem tcpWhoisQuery_timeout_and_partial_data_witness :
    (tcpRun [SockEvent.dataEv "partial", SockEvent.timeoutEv]).settled =
        some TcpOutcome.rejectedTimeout ∧
      (tcpRun [SockEvent.dataEv "partial", SockEvent.timeoutEv]).destroyed =
        true ∧
      (tcpRun [SockEvent.dataEv "par", SockEvent.dataEv "tial",
          SockEvent.closeEv]).settled =
        some (TcpOutcome.resolved "partial") := by
  have h := tcpWhoisQuery_timeout_and_partial_data
  have h2 := h.2.1 [SockEvent.dataEv "partial"] []
    (by intro e he; rw [List.mem_singleton] at he; exact ⟨_, he⟩)
  have h3 := h.2.2 [SockEvent.dataEv "par", SockEvent.dataEv "tial"]
    (by
      intro e he
      rw [List.mem_cons, List.mem_singleton] at he
      cases he with
      | inl h4 => exact ⟨_, h4⟩
      | inr h4 => exact ⟨_, h4⟩)
    (by simp)
  exact ⟨h2.1, h2.2, h3⟩

/-! ### Resolution orchestrator (src/app/api/whois/route.ts)

The orchestrator is embedded over an oracle record holding the network
primitives (TCP WHOIS, the system whois command) and the static table
lookups it consults; every run returns its outcome together with the
trace of network operations it performed. -/

/-- Output of the promisified exec call: captured stdout and stderr. -/
structure ExecOut where
  stdout : String
  stderr : String
  deriving DecidableEq, Repr

/-- Domain metadata attached to priority-WHOIS results.  The source
stores the whole validateDomain record and ccTLD row; this model carries
the only members this code path ever reads again (the tld of the
validation and the whoisServer of the ccTLD row). -/
structure DomainInfo where
  validationTld : Option String
  isCountryTLD : Bool
  cctldWhoisServer : Option String
  deriving DecidableEq, Repr

/-- Result object built by the WHOIS paths of the route. -/
structure WhoisResult where
  raw : String
  parsed : List (String × WhoisVal)
  query : String
  type : String
  timestamp : Nat
  dataSource : String
  source : Option String := none
  domainInfo : Option DomainInfo := none
  deriving DecidableEq, Repr

/-- Oracles and table lookups of the orchestrator: the raw TCP WHOIS
client outcome, the system whois command outcome (keyed by the optional
host override), the ccTLD and generic WHOIS-server tables, the tld of
validateDomain, the platform side of the RDAP client, and the two pure
collaborators of rdap-parser.ts. -/
structure WhoisEnv where
  tcpWhois : String → String → Except String String
  execWhois : Option String → String → Except String ExecOut
  isCCTLD : String → Bool
  cctldWhoisServer : String → Option String
  getDomainWhoisServer : String → Option String
  validateTld : String → Option String
  rdap : RdapEnv
  parseRDAP : RDAPResponse → List (String × WhoisVal)
  rdapToText : List (String × WhoisVal) → String

/-- Fixed phrase list of isDomainUnregisteredFromWhois. -/
def unregisteredPatterns : List String :=
  ["no match for", "not found", "no entries found", "no data found",
   "the queried object does not exist", "status: available",
   "domain available", "no object found", "available",
   "not been registered"]

/-- Model of isDomainUnregisteredFromWhois: case-insensitive substring
match of the raw text against the fixed phrase list. -/
def isDomainUnregisteredFromWhois (raw : String) : Bool :=
  unregisteredPatterns.any (fun p => strIncludes (jsToLower raw) p)

/-- Line scan of extractRegistrarWhoisServer: the first line whose
trimmed lower-cased text starts with a registrar-whois-server label and
whose value (second colon-separated part, trimmed) is non-empty and
contains a dot; a matching label with an unusable value keeps
scanning. -/
def scanRegistrarServerLines : List String → Option String
  | [] => none
  | line :: rest =>
      let trimmedLine := jsToLower (jsTrim line)
      if strStartsWith trimmedLine "registrar whois server:" ||
          strStartsWith trimmedLine "whois server:" ||
          strStartsWith trimmedLine "registrar whois:" then
        match (splitOnChar ':' line)[1]? with
        | some raw =>
            let server := jsTrim raw
            if server != "" && strIncludes server "." then some server
            else scanRegistrarServerLines rest
        | none => scanRegistrarServerLines rest
      else scanRegistrarServerLines rest

/-- Model of extractRegistrarWhoisServer. -/
def extractRegistrarWhoisServer (whoisOutput : String) : Option String :=
  scanRegistrarServerLines (splitOnChar '\n' whoisOutput)

/-- Contact fields probed by hasRichContactData. -/
def contactFields : List String :=
  ["registrant_name", "registrant_email", "registrant_phone",
   "admin_name", "admin_email", "admin_phone",
   "tech_name", "tech_email", "tech_phone",
   "registrant contact", "administrative contact", "technical contact"]

/-- Replacement of the first occurrence of a character by another,
modelling the single-occurrence replace used on contact field names. -/
def replaceFirstCharWith (c r : Char) : List Char → List Char
  | [] => []
  | x :: rest => if x == c then r :: rest else x :: replaceFirstCharWith c r rest

/-- JavaScript toString of a parsed value: arrays join with commas. -/
def whoisValToString : WhoisVal → String
  | WhoisVal.str s => s
  | WhoisVal.arr xs => joinWith "," xs

/-- JavaScript truthiness of a parsed value: the empty string is falsy,
every array (empty included) is truthy. -/
def whoisValTruthy : WhoisVal → Bool
  | WhoisVal.str s => s != ""
  | WhoisVal.arr _ => true

/-- Model of hasRichContactData: some probed field (under its underscore
name, or its first-underscore-to-space variant when the former is falsy)
holds a value whose string form is non-blank. -/
def hasRichContactData (parsed : List (String × WhoisVal)) : Bool :=
  contactFields.any (fun field =>
    let alt := String.mk (replaceFirstCharWith '_' ' ' field.data)
    let value := match objGet parsed field with
      | some w => if whoisValTruthy w then some w else objGet parsed alt
      | none => objGet parsed alt
    match value with
    | some w => whoisValTruthy w && jsTrim (whoisValToString w) != ""
    | none => false)

/-- Error message of the unregistered-domain failure. -/
def unregisteredMsg : String := "域名未注册"

/-- Model of performStandardWhoisQuery: one unqualified system whois
call; stderr with empty stdout fails; for domains an unregistered text
fails with the unregistered error; otherwise the parsed result is
tagged standard. -/
def performStandardWhoisQuery (env : WhoisEnv) (now : Nat)
    (query ty : String) : Except String WhoisResult × List NetEvent :=
  match env.execWhois none query with
  | Except.error e => (Except.error e, [NetEvent.execWhois none query])
  | Except.ok out =>
      if out.stderr != "" && out.stdout == "" then
        (Except.error out.stderr, [NetEvent.execWhois none query])
      else if ty == "domain" && isDomainUnregisteredFromWhois out.stdout then
        (Except.error unregisteredMsg, [NetEvent.execWhois none query])
      else
        let r : WhoisResult :=
          { raw := out.stdout, parsed := parseWhoisResult out.stdout ty,
            query := query, type := ty, timestamp := now,
            dataSource := "standard" }
        (Except.ok r, [NetEvent.execWhois none query])

/-- Domain metadata computed at the start of
performDomainWhoisWithPriority. -/
def domainInfoOf (env : WhoisEnv) (query : String) : DomainInfo :=
  let isCountryTLD := env.isCCTLD query
  { validationTld := env.validateTld query,
    isCountryTLD := isCountryTLD,
    cctldWhoisServer := if isCountryTLD then env.cctldWhoisServer query
      else none }

/-- Registry phase of performDomainWhoisWithPriority: query the preferred
server over TCP, fall back to the system whois command with a host
override on TCP failure; with no preferred server issue one unqualified
system whois call.  A command failure is the error of the phase. -/
def registryAcquire (env : WhoisEnv) (query : String) :
    Except String String × List NetEvent :=
  let isCountryTLD := env.isCCTLD query
  let cctld := if isCountryTLD then env.cctldWhoisServer query else none
  let preferredServer :=
    if isCountryTLD then cctld else env.getDomainWhoisServer query
  match preferredServer with
  | some srv =>
      match env.tcpWhois srv query with
      | Except.ok out => (Except.ok out, [NetEvent.tcp srv query])
      | Except.error _ =>
          match env.execWhois (some srv) query with
          | Except.ok o =>
              (Except.ok o.stdout,
               [NetEvent.tcp srv query, NetEvent.execWhois (some srv) query])
          | Except.error e =>
              (Except.error e,
               [NetEvent.tcp srv query, NetEvent.execWhois (some srv) query])
  | none =>
      match env.execWhois none query with
      | Except.ok o => (Except.ok o.stdout, [NetEvent.execWhois none query])
      | Except.error e => (Except.error e, [NetEvent.execWhois none query])

/-- Registrar phase of performDomainWhoisWithPriority: TCP first; a TCP
failure or an unregistered-looking TCP answer falls back to the system
whois command with the registrar host; an unregistered-looking or failed
command answer is swallowed, leaving no registrar text. -/
def registrarAcquire (env : WhoisEnv) (registrarServer query : String) :
    Option String × List NetEvent :=
  let tcpEv := NetEvent.tcp registrarServer query
  let execEv := NetEvent.execWhois (some registrarServer) query
  let viaExec : Option String × List NetEvent :=
    match env.execWhois (some registrarServer) query with
    | Except.ok o =>
        if isDomainUnregisteredFromWhois o.stdout then (none, [tcpEv, execEv])
        else (some o.stdout, [tcpEv, execEv])
    | Except.error _ => (none, [tcpEv, execEv])
  match env.tcpWhois registrarServer query with
  | Except.ok out =>
      if isDomainUnregisteredFromWhois out then viaExec
      else (some out, [tcpEv])
  | Except.error _ => viaExec

/-- Model of performDomainWhoisWithPriority: registry phase, unregistered
check, optional registrar phase, rich-contact preference; any error of
the phase chain (an unregistered registry text included, since the
enclosing catch is unconditional) falls back to one generic
performStandardWhoisQuery call whose result, when successful, gets the
domain metadata attached. -/
def performDomainWhoisWithPriority (env : WhoisEnv) (now : Nat)
    (query : String) : Except String WhoisResult × List NetEvent :=
  let dinfo := domainInfoOf env query
  let s := performStandardWhoisQuery env now query "domain"
  let fallback : Except String WhoisResult × List NetEvent :=
    (match s.1 with
     | Except.ok r => Except.ok { r with domainInfo := some dinfo }
     | Except.error e => Except.error e, s.2)
  let reg := registryAcquire env query
  match reg.1 with
  | Except.error _ => (fallback.1, reg.2 ++ fallback.2)
  | Except.ok registryStdout =>
      if isDomainUnregisteredFromWhois registryStdout then
        (fallback.1, reg.2 ++ fallback.2)
      else
        let registryResult : WhoisResult :=
          { raw := registryStdout,
            parsed := parseWhoisResult registryStdout "domain",
            query := query, type := "domain", timestamp := now,
            dataSource := "registry", source := some "registry",
            domainInfo := some dinfo }
        match extractRegistrarWhoisServer registryStdout with
        | some registrarServer =>
            let ra := registrarAcquire env registrarServer query
            match ra.1 with
            | some registrarStdout =>
                let registrarResult : WhoisResult :=
                  { raw := registrarStdout,
                    parsed := parseWhoisResult registrarStdout "domain",
                    query := query, type := "domain", timestamp := now,
                    dataSource := "registrar", source := some "registrar",
                    domainInfo := some dinfo }
                if hasRichContactData
                    (parseWhoisResult registrarStdout "domain") then
                  (Except.ok registrarResult, reg.2 ++ ra.2)
                else (Except.ok registryResult, reg.2 ++ ra.2)
            | none => (Except.ok registryResult, reg.2 ++ ra.2)
        | none => (Except.ok registryResult, reg.2)

/-- Boolean success test of an Except value. -/
def exceptIsOk {ε α : Type} : Except ε α → Bool
  | Except.ok _ => true
  | Except.error _ => false

/-- Generic WHOIS text of the C1 oracle, a registered-looking answer. -/
def c1FallbackRaw : String :=
  "Domain Name: EXAMPLE.COM\nRegistrant Email: user@example.com"

/-- Oracle of the C1 runs: the registry TCP answer matches an
unregistered phrase while the system whois command answers a
registered-looking text. -/
def envC1 : WhoisEnv :=
  { tcpWhois := fun _ _ => Except.ok "No match for domain EXAMPLE.COM",
    execWhois := fun _ _ => Except.ok { stdout := c1FallbackRaw, stderr := "" },
    isCCTLD := fun _ => false,
    cctldWhoisServer := fun _ => none,
    getDomainWhoisServer := fun _ => some "whois.registry.example",
    validateTld := fun _ => some "com",
    rdap := envW,
    parseRDAP := fun _ => [],
    rdapToText := fun _ => "" }

/-- C1 counterexample: the registry WHOIS text matches an unregistered
phrase, yet the orchestrator does not fail with the unregistered error —
it performs one further generic whois fallback query (visible as the
second trace event) and returns its successful result. -/
theorem performDomainWhoisWithPriority_unregistered_counterexample :
    isDomainUnregisteredFromWhois "No match for domain EXAMPLE.COM" = true ∧
    envC1.tcpWhois "whois.registry.example" "example.com" =
      Except.ok "No match for domain EXAMPLE.COM" ∧
    exceptIsOk (performDomainWhoisWithPriority envC1 0 "example.com").1 =
      true ∧
    (performDomainWhoisWithPriority envC1 0 "example.com").2 =
      [NetEvent.tcp "whois.registry.example" "example.com",
       NetEvent.execWhois none "example.com"] := by
  refine ⟨by decide, rfl, by decide, by decide⟩

/-- C1 amended: when the registry WHOIS text matches one of the
unregistered phrases, performDomainWhoisWithPriority never issues a
registrar-host query and never uses the registry text, but the outcome
is not terminal: the run equals one generic performStandardWhoisQuery
fallback (its trace appended to the registry trace), so the unregistered
failure is the final outcome only when that fallback also reports it. -/
theorem performDomainWhoisWithPriority_unregistered_skips_registrar
    (env : WhoisEnv) (now : Nat) (query registryText : String)
    (hreg : (registryAcquire env query).1 = Except.ok registryText)
    (hunreg : isDomainUnregisteredFromWhois registryText = true) :
    performDomainWhoisWithPriority env now query =
      ((match (performStandardWhoisQuery env now query "domain").1 with
        | Except.ok r =>
            Except.ok { r with domainInfo := some (domainInfoOf env query) }
        | Except.error e => Except.error e),
       (registryAcquire env query).2 ++
         (performStandardWhoisQuery env now query "domain").2) := by
  simp only [performDomainWhoisWithPriority, hreg]
  rw [if_pos hunreg]

theorem performDomainWhoisWithPriority_unregistered_skips_registrar_witness :
    performDomainWhoisWithPriority envC1 0 "example.com" =
      (Except.ok
        { raw := c1FallbackRaw,
          parsed := [("domain_name", WhoisVal.str "EXAMPLE.COM"),
            ("registrant_email", WhoisVal.str "user@example.com")],
          query := "example.com", type := "domain", timestamp := 0,
          dataSource := "standard", source := none,
          domainInfo := some (domainInfoOf envC1 "example.com") },
       [NetEvent.tcp "whois.registry.example" "example.com",
        NetEvent.execWhois none "example.com"]) :=
  performDomainWhoisWithPriority_unregistered_skips_registrar envC1 0
    "example.com" "No match for domain EXAMPLE.COM" rfl (by decide)

/-! ### Route-level query with result cache (performWhoisQuery) -/

/-- Result object built by the RDAP branch of performWhoisQuery. -/
structure RdapBranchResult where
  raw : String
  parsed : List (String × WhoisVal)
  query : String
  type : String
  timestamp : Nat
  dataSource : String
  rdapSource : Option RdapSource
  rdapRegistryRaw : Option RDAPResponse
  rdapRegistrarRaw : Option RDAPResponse
  deriving DecidableEq, Repr

/-- Value cached and returned by performWhoisQuery: a WHOIS-path result
or an RDAP-branch result. -/
inductive QueryResult where
  | whoisRes (r : WhoisResult)
  | rdapRes (r : RdapBranchResult)
  deriving DecidableEq, Repr

/-- Route result cache TTL in milliseconds (5 minutes). -/
def CACHE_TTL : Nat := 5 * 60 * 1000

/-- Entry of the route result cache. -/
structure WhoisCacheEntry where
  data : QueryResult
  timestamp : Nat
  deriving DecidableEq, Repr

/-- Process-wide mutable state the route touches: its result cache and
the RDAP client state. -/
structure WhoisSys where
  cache : List (String × WhoisCacheEntry) := []
  rdap : RdapClientState := {}
  deriving DecidableEq, Repr

/-- Cache key of performWhoisQuery; a missing or empty dataSource counts
as rdap (JavaScript or-defaulting). -/
def cacheKeyOf (query ty : String) (dataSource : Option String) : String :=
  ty ++ ":" ++ query ++ ":" ++
    (match dataSource with
     | some s => if s != "" then s else "rdap"
     | none => "rdap")

/-- Model of isRDAPSupported: a non-empty dynamic bootstrap entry or a
static table entry for the TLD. -/
def isRDAPSupported (bst : BootstrapState) (domain : String) : Bool :=
  let tld := getTLD domain
  let hasDynamic := match bst.dynamicRdapMap with
    | some m =>
        match assocGet m tld with
        | some l => l.length > 0
        | none => false
    | none => false
  hasDynamic || (RDAP_SERVERS tld).isSome

/-- RDAP attempt of performWhoisQuery: on success build the RDAP-branch
result via the parser collaborators; an error whose message is
RDAP_NOT_FOUND (none of this client's errors) would surface as the
unregistered failure; every other error is swallowed, leaving no
result. -/
def rdapBranchAttempt (env : WhoisEnv) (rs : RdapClientState) (now : Nat)
    (query ty : String) :
    Except String (Option RdapBranchResult) × RdapClientState ×
      List NetEvent :=
  let q := queryDomainRDAP env.rdap rs now query {}
  match q.1 with
  | Except.ok rdapData =>
      let parsedData := env.parseRDAP rdapData.data
      let whoisText := env.rdapToText parsedData
      let actualDataSource :=
        if rdapData.rdapSource == some RdapSource.registrar then
          "rdap-registrar"
        else "rdap-registry"
      let r : RdapBranchResult :=
        { raw := whoisText, parsed := parsedData, query := query, type := ty,
          timestamp := now, dataSource := actualDataSource,
          rdapSource := rdapData.rdapSource,
          rdapRegistryRaw := rdapData.registryRaw,
          rdapRegistrarRaw := rdapData.registrarRaw }
      (Except.ok (some r), q.2.1, q.2.2)
  | Except.error e =>
      if rdapErrMessage e == "RDAP_NOT_FOUND" then
        (Except.error unregisteredMsg, q.2.1, q.2.2)
      else (Except.ok none, q.2.1, q.2.2)

/-- Try-block body of performWhoisQuery: branch on the query type and the
requested data source exactly as the route does; the rdap-or-default
branch falls back to the priority WHOIS chain and then to one standard
WHOIS call, the explicit-source branches run their chain directly, the
unknown-source branch retries RDAP then the priority chain without the
standard fallback. -/
def performWhoisQueryBody (env : WhoisEnv) (rs : RdapClientState)
    (now : Nat) (query ty : String) (dataSource : Option String) :
    Except String QueryResult × RdapClientState × List NetEvent :=
  if ty == "domain" then
    let dsFalsy := match dataSource with
      | none => true
      | some s => s == ""
    if dsFalsy || dataSource == some "rdap" then
      let a := rdapBranchAttempt env rs now query ty
      match a.1 with
      | Except.error e => (Except.error e, a.2.1, a.2.2)
      | Except.ok (some r) =>
          (Except.ok (QueryResult.rdapRes r), a.2.1, a.2.2)
      | Except.ok none =>
          let p := performDomainWhoisWithPriority env now query
          match p.1 with
          | Except.ok r =>
              (Except.ok (QueryResult.whoisRes r), a.2.1, a.2.2 ++ p.2)
          | Except.error _ =>
              let s := performStandardWhoisQuery env now query ty
              ((match s.1 with
                | Except.ok r => Except.ok (QueryResult.whoisRes r)
                | Except.error e => Except.error e),
               a.2.1, a.2.2 ++ p.2 ++ s.2)
    else if dataSource == some "whois" then
      let s := performStandardWhoisQuery env now query ty
      ((match s.1 with
        | Except.ok r => Except.ok (QueryResult.whoisRes r)
        | Except.error e => Except.error e), rs, s.2)
    else if dataSource == some "registrar" then
      let p := performDomainWhoisWithPriority env now query
      ((match p.1 with
        | Except.ok r =>
            Except.ok (QueryResult.whoisRes { r with dataSource := "registrar" })
        | Except.error e => Except.error e), rs, p.2)
    else if dataSource == some "registry" then
      let p := performDomainWhoisWithPriority env now query
      ((match p.1 with
        | Except.ok r =>
            Except.ok (QueryResult.whoisRes { r with dataSource := "registry" })
        | Except.error e => Except.error e), rs, p.2)
    else
      let a := rdapBranchAttempt env rs now query ty
      match a.1 with
      | Except.error e => (Except.error e, a.2.1, a.2.2)
      | Except.ok (some r) =>
          (Except.ok (QueryResult.rdapRes r), a.2.1, a.2.2)
      | Except.ok none =>
          let p := performDomainWhoisWithPriority env now query
          ((match p.1 with
            | Except.ok r => Except.ok (QueryResult.whoisRes r)
            | Except.error e => Except.error e),
           a.2.1, a.2.2 ++ p.2)
  else
    let s := performStandardWhoisQuery env now query ty
    ((match s.1 with
      | Except.ok r => Except.ok (QueryResult.whoisRes r)
      | Except.error e => Except.error e), rs, s.2)

/-- Catch wrapper of performWhoisQuery: an error message containing both
whois and not found (a missing system whois binary) is replaced by the
unsupported-suffix error when neither RDAP nor a WHOIS host covers the
TLD, and by the install-whois error otherwise; every other error is
rethrown unchanged. -/
def whoisMissingTransform (env : WhoisEnv) (bst : BootstrapState)
    (query ty e : String) : String :=
  if strIncludes e "whois" && strIncludes e "not found" then
    if ty == "domain" then
      let tld := env.validateTld query
      let rdapSupported := match tld with
        | some t => isRDAPSupported bst t
        | none => false
      let hasWhoisServer := (env.getDomainWhoisServer query).isSome
      if !rdapSupported && !hasWhoisServer then
        "暂不支持该后缀（." ++ tld.getD "未知" ++ "）"
      else "系统未安装 whois，请使用 RDAP 或安装 whois 工具后重试"
    else "系统未安装 whois，请使用 RDAP 或安装 whois 工具后重试"
  else e

/-- Cache-miss path of performWhoisQuery: run the body; a successful
result is written to the cache under the key, an error leaves the cache
untouched and goes through the catch wrapper. -/
def performWhoisQueryMiss (env : WhoisEnv) (sys : WhoisSys) (now : Nat)
    (query ty : String) (dataSource : Option String) :
    Except String QueryResult × WhoisSys × List NetEvent :=
  let b := performWhoisQueryBody env sys.rdap now query ty dataSource
  match b.1 with
  | Except.ok result =>
      (Except.ok result,
       { cache := assocSet sys.cache (cacheKeyOf query ty dataSource)
           { data := result, timestamp := now },
         rdap := b.2.1 },
       b.2.2)
  | Except.error e =>
      (Except.error (whoisMissingTransform env b.2.1.bootstrap query ty e),
       { cache := sys.cache, rdap := b.2.1 },
       b.2.2)

/-- Model of performWhoisQuery: return a fresh cache entry verbatim,
otherwise run the miss path. -/
def performWhoisQuery (env : WhoisEnv) (sys : WhoisSys) (now : Nat)
    (query ty : String) (dataSource : Option String) :
    Except String QueryResult × WhoisSys × List NetEvent :=
  match assocGet sys.cache (cacheKeyOf query ty dataSource) with
  | some cached =>
      if now - cached.timestamp < CACHE_TTL then
        (Except.ok cached.data, sys, [])
      else performWhoisQueryMiss env sys now query ty dataSource
  | none => performWhoisQueryMiss env sys now query ty dataSource

/-- Removal of every binding of a key, the specification-side meaning of
an absent cache entry. -/
def assocRemove {α : Type} (m : List (String × α)) (k : String) :
    List (String × α) :=
  match m with
  | [] => []
  | (k0, v0) :: rest =>
      if k0 == k then assocRemove rest k else (k0, v0) :: assocRemove rest k

theorem assocGet_assocRemove {α : Type} (m : List (String × α))
    (k k2 : String) :
    assocGet (assocRemove m k) k2 =
      if k2 == k then none else assocGet m k2 := by
  induction m with
  | nil => simp [assocRemove, assocGet]
  | cons hd tl ih =>
      obtain ⟨k0, v0⟩ := hd
      by_cases h0 : k0 = k
      · subst h0
        by_cases h2 : k2 = k0
        · subst h2
          simp [assocRemove, assocGet, ih]
        · simp [assocRemove, assocGet, ih,
            beq_eq_false_iff_ne.mpr (fun hh => h2 hh),
            beq_eq_false_iff_ne.mpr (fun hh => h2 hh.symm)]
      · by_cases h2 : k0 = k2
        · subst h2
          simp [assocRemove, assocGet, beq_eq_false_iff_ne.mpr h0,
            beq_eq_false_iff_ne.mpr (fun hh => h0 hh)]
        · simp [assocRemove, assocGet, ih,
            beq_eq_false_iff_ne.mpr (fun hh => h0 hh),
            beq_eq_false_iff_ne.mpr (fun hh => h2 hh)]

/-- View a reader has of the result cache at a given time: a stored value
is visible only while its entry is within the TTL. -/
def cacheFreshGet (m : List (String × WhoisCacheEntry)) (now2 : Nat)
    (k : String) : Option QueryResult :=
  match assocGet m k with
  | some c => if now2 - c.timestamp < CACHE_TTL then some c.data else none
  | none => none

/-- State with the cache entry of one query key absent. -/
def sysWithout (sys : WhoisSys) (query ty : String)
    (dataSource : Option String) : WhoisSys :=
  { sys with cache := assocRemove sys.cache (cacheKeyOf query ty dataSource) }

theorem performWhoisQueryMiss_cache (env : WhoisEnv) (sys : WhoisSys)
    (now : Nat) (query ty : String) (dataSource : Option String) :
    (∀ e, (performWhoisQueryMiss env sys now query ty dataSource).1 =
        Except.error e →
      (performWhoisQueryMiss env sys now query ty dataSource).2.1.cache =
        sys.cache) ∧
    (∀ r, (performWhoisQueryMiss env sys now query ty dataSource).1 =
        Except.ok r →
      (performWhoisQueryMiss env sys now query ty dataSource).2.1.cache =
        assocSet sys.cache (cacheKeyOf query ty dataSource)
          { data := r, timestamp := now }) := by
  simp only [performWhoisQueryMiss]
  cases hb : (performWhoisQueryBody env sys.rdap now query ty dataSource).1 with
  | ok result =>
      refine ⟨?_, ?_⟩
      · intro e he
        exact Except.noConfusion he
      · intro r hr
        have hr2 : (Except.ok result : Except String QueryResult) =
          Except.ok r := hr
        cases Except.ok.inj hr2
        rfl
  | error e0 =>
      refine ⟨?_, ?_⟩
      · intro e he; rfl
      · intro r hr
        exact Except.noConfusion hr

/-- C10: the route result cache is left unchanged by every run of
performWhoisQuery that fails, and an entry is written under the cache
key only by a run that completes with a result (a fresh cache hit writes
nothing, a completed miss writes exactly its result under its key). -/
theorem performWhoisQuery_cache_unchanged_on_error (env : WhoisEnv)
    (sys : WhoisSys) (now : Nat) (query ty : String)
    (dataSource : Option String) :
    (∀ e, (performWhoisQuery env sys now query ty dataSource).1 =
        Except.error e →
      (performWhoisQuery env sys now query ty dataSource).2.1.cache =
        sys.cache) ∧
    (∀ r, (performWhoisQuery env sys now query ty dataSource).1 =
        Except.ok r →
      (performWhoisQuery env sys now query ty dataSource).2.1.cache =
          sys.cache ∨
        (performWhoisQuery env sys now query ty dataSource).2.1.cache =
          assocSet sys.cache (cacheKeyOf query ty dataSource)
            { data := r, timestamp := now }) := by
  unfold performWhoisQuery
  cases hg : assocGet sys.cache (cacheKeyOf query ty dataSource) with
  | some cached =>
      dsimp only
      by_cases ht : now - cached.timestamp < CACHE_TTL
      · rw [if_pos ht]
        refine ⟨?_, ?_⟩
        · intro e he
          exact Except.noConfusion he
        · intro r hr
          exact Or.inl rfl
      · rw [if_neg ht]
        have h := performWhoisQueryMiss_cache env sys now query ty dataSource
        exact ⟨h.1, fun r hr => Or.inr (h.2 r hr)⟩
  | none =>
      have h := performWhoisQueryMiss_cache env sys now query ty dataSource
      exact ⟨h.1, fun r hr => Or.inr (h.2 r hr)⟩

/-- C5: a lookup within the TTL of a stored entry returns exactly the
stored result with no query operation and no state change; an entry at
or past the TTL is never returned — the run has the same outcome, the
same network trace, the same RDAP state and a reader-indistinguishable
final cache as the run with the entry absent. -/
theorem performWhoisQuery_ttl_semantics (env : WhoisEnv) (sys : WhoisSys)
    (now : Nat) (query ty : String) (dataSource : Option String) :
    (∀ c, assocGet sys.cache (cacheKeyOf query ty dataSource) = some c →
      now - c.timestamp < CACHE_TTL →
      performWhoisQuery env sys now query ty dataSource =
        (Except.ok c.data, sys, [])) ∧
    (∀ c, assocGet sys.cache (cacheKeyOf query ty dataSource) = some c →
      ¬ now - c.timestamp < CACHE_TTL →
      (performWhoisQuery env sys now query ty dataSource).1 =
          (performWhoisQuery env (sysWithout sys query ty dataSource) now
            query ty dataSource).1 ∧
        (performWhoisQuery env sys now query ty dataSource).2.2 =
          (performWhoisQuery env (sysWithout sys query ty dataSource) now
            query ty dataSource).2.2 ∧
        (performWhoisQuery env sys now query ty dataSource).2.1.rdap =
          (performWhoisQuery env (sysWithout sys query ty dataSource) now
            query ty dataSource).2.1.rdap ∧
        (∀ now2 k2, now ≤ now2 →
          cacheFreshGet
              (performWhoisQuery env sys now query ty dataSource).2.1.cache
              now2 k2 =
            cacheFreshGet
              (performWhoisQuery env (sysWithout sys query ty dataSource)
                now query ty dataSource).2.1.cache now2 k2)) := by
  constructor
  · intro c hc hfresh
    simp only [performWhoisQuery, hc]
    rw [if_pos hfresh]
  · intro c hc hexp
    have e1 : performWhoisQuery env sys now query ty dataSource =
        performWhoisQueryMiss env sys now query ty dataSource := by
      simp only [performWhoisQuery, hc]
      rw [if_neg hexp]
    have hnone : assocGet (sysWithout sys query ty dataSource).cache
        (cacheKeyOf query ty dataSource) = none := by
      show assocGet (assocRemove sys.cache (cacheKeyOf query ty dataSource))
        (cacheKeyOf query ty dataSource) = none
      rw [assocGet_assocRemove]
      simp
    have e2 : performWhoisQuery env (sysWithout sys query ty dataSource) now
        query ty dataSource =
        performWhoisQueryMiss env (sysWithout sys query ty dataSource) now
          query ty dataSource := by
      simp only [performWhoisQuery, hnone]
    rw [e1, e2]
    simp only [performWhoisQueryMiss, sysWithout]
    cases hb : (performWhoisQueryBody env sys.rdap now query ty
        dataSource).1 with
    | ok result =>
        refine ⟨rfl, rfl, rfl, ?_⟩
        intro now2 k2 hle
        by_cases hk : k2 = cacheKeyOf query ty dataSource
        · subst hk
          simp [cacheFreshGet, assocGet_assocSet]
        · have e := beq_eq_false_iff_ne.mpr hk
          simp [cacheFreshGet, assocGet_assocSet, assocGet_assocRemove, e]
    | error e0 =>
        refine ⟨rfl, rfl, rfl, ?_⟩
        intro now2 k2 hle
        by_cases hk : k2 = cacheKeyOf query ty dataSource
        · subst hk
          simp only [cacheFreshGet, assocGet_assocRemove, beq_self_eq_true,
            if_true, hc]
          rw [if_neg (fun hlt => hexp
            (Nat.lt_of_le_of_lt (Nat.sub_le_sub_right hle _) hlt))]
        · have e := beq_eq_false_iff_ne.mpr hk
          simp [cacheFreshGet, assocGet_assocRemove, e]

/-- Platform side of the failing-oracle environment. -/
def rdapEnvErr : RdapEnv :=
  { toASCII := fun s => s, encodeParams := fun _ => "",
    urlOrigin := fun _ => none, fetchRdap := fun _ => RdapFetch.netErr,
    fetchBootstrap := BootFetch.netErr }

/-- Oracle on which every network primitive fails. -/
def envErr : WhoisEnv :=
  { tcpWhois := fun _ _ => Except.error "tcp down",
    execWhois := fun _ _ => Except.error "exec failed",
    isCCTLD := fun _ => false,
    cctldWhoisServer := fun _ => none,
    getDomainWhoisServer := fun _ => none,
    validateTld := fun _ => some "com",
    rdap := rdapEnvErr,
    parseRDAP := fun _ => [],
    rdapToText := fun _ => "" }

/-- Fresh route state for the witnesses. -/
def wSys0 : WhoisSys := {}

/-- Result the RDAP branch produces for the witness oracle. -/
def c10Result : QueryResult :=
  QueryResult.rdapRes
    { raw := "", parsed := [], query := "example.com", type := "domain",
      timestamp := 0, dataSource := "rdap-registry",
      rdapSource := some RdapSource.registry,
      rdapRegistryRaw := some {}, rdapRegistrarRaw := none }

theorem performWhoisQuery_cache_unchanged_on_error_witness :
    (performWhoisQuery envErr wSys0 0 "example.com" "domain" none).2.1.cache =
        wSys0.cache ∧
      ((performWhoisQuery envC1 wSys0 0 "example.com" "domain" none).2.1.cache =
          wSys0.cache ∨
        (performWhoisQuery envC1 wSys0 0 "example.com" "domain"
              none).2.1.cache =
          assocSet wSys0.cache (cacheKeyOf "example.com" "domain" none)
            { data := c10Result, timestamp := 0 }) :=
  ⟨(performWhoisQuery_cache_unchanged_on_error envErr wSys0 0 "example.com"
      "domain" none).1 "exec failed" rfl,
   (performWhoisQuery_cache_unchanged_on_error envC1 wSys0 0 "example.com"
      "domain" none).2 c10Result rfl⟩

/-- Cache entry of the C5 witness. -/
def entryH : WhoisCacheEntry := { data := c10Result, timestamp := 0 }

/-- Route state of the C5 witness: one stored entry for the key. -/
def sysH : WhoisSys :=
  { cache := [(cacheKeyOf "example.com" "domain" none, entryH)], rdap := {} }

theorem performWhoisQuery_ttl_semantics_witness :
    performWhoisQuery envC1 sysH 1000 "example.com" "domain" none =
        (Except.ok c10Result, sysH, []) ∧
      (performWhoisQuery envC1 sysH CACHE_TTL "example.com" "domain"
          none).1 =
        (performWhoisQuery envC1 (sysWithout sysH "example.com" "domain" none)
          CACHE_TTL "example.com" "domain" none).1 :=
  ⟨(performWhoisQuery_ttl_semantics envC1 sysH 1000 "example.com" "domain"
      none).1 entryH rfl (by decide),
   ((performWhoisQuery_ttl_semantics envC1 sysH CACHE_TTL "example.com"
      "domain" none).2 entryH rfl (by decide)).1⟩

end WhoisSpec
